import Mathlib

/-!
Shallow embedding of the decisiontaker repository's retrieval-gated
generation pipeline, centred on `src/app/api/decide/route.ts` (the active
route), the client-side adapter in `src/app/page.tsx`, and the SQL
retrieval function in
`src/supabase/migrations/20251223014733_create_documents_table_and_match_function.sql`.

Strings are modelled as Lean `String`/`List Char`; `JSON.parse` is modelled
by a recursive-descent parser of the JSON grammar (ECMA-404, as enforced by
`JSON.parse`), with numbers kept as their source lexeme (no claim depends on
numeric values).
-/

/-- JSON value AST as produced by the modelled `JSON.parse`.  Objects keep
their members in source order; numbers keep their lexeme. -/
inductive JVal where
  | jnull : JVal
  | jbool : Bool → JVal
  | jnum : String → JVal
  | jstr : String → JVal
  | jarr : List JVal → JVal
  | jobj : List (String × JVal) → JVal

/-- JSON whitespace accepted by `JSON.parse`: space, tab, line feed, carriage
return. -/
def isJsonWs (c : Char) : Bool :=
  c = ' ' || c = '\t' || c = '\n' || c = '\r'

/-- Skip leading JSON whitespace. -/
def skipWs (s : List Char) : List Char :=
  s.dropWhile isJsonWs

/-- Decode one escape character after a backslash (the non-`\u` forms). -/
def unescapeChar (c : Char) : Option Char :=
  if c = '"' then some '"'
  else if c = '\\' then some '\\'
  else if c = '/' then some '/'
  else if c = 'b' then some (Char.ofNat 8)
  else if c = 'f' then some (Char.ofNat 12)
  else if c = 'n' then some '\n'
  else if c = 'r' then some '\r'
  else if c = 't' then some '\t'
  else none

def hexDigit (c : Char) : Option Nat :=
  if '0' ≤ c ∧ c ≤ '9' then some (c.toNat - '0'.toNat)
  else if 'a' ≤ c ∧ c ≤ 'f' then some (c.toNat - 'a'.toNat + 10)
  else if 'A' ≤ c ∧ c ≤ 'F' then some (c.toNat - 'A'.toNat + 10)
  else none

/-- Body of a JSON string after the opening quote: returns the decoded
characters and the rest of the input after the closing quote.  Raw control
characters (below 0x20) are rejected, as `JSON.parse` does.  (Caveat: lone
UTF-16 surrogates from `\u` escapes are collapsed by `Char.ofNat`'s validity
check; no claim exercises them.) -/
def parseStringBody : List Char → Option (List Char × List Char)
  | [] => none
  | c :: rest =>
    if c = '"' then some ([], rest)
    else if c = '\\' then
      match rest with
      | [] => none
      | e :: rest2 =>
        if e = 'u' then
          match rest2 with
          | h1 :: h2 :: h3 :: h4 :: rest3 =>
            match hexDigit h1, hexDigit h2, hexDigit h3, hexDigit h4 with
            | some a, some b, some c2, some d =>
              match parseStringBody rest3 with
              | some (tail, rem) =>
                some (Char.ofNat (((a * 16 + b) * 16 + c2) * 16 + d) :: tail, rem)
              | none => none
            | _, _, _, _ => none
          | _ => none
        else
          match unescapeChar e with
          | some d =>
            match parseStringBody rest2 with
            | some (tail, rem) => some (d :: tail, rem)
            | none => none
          | none => none
    else if c.toNat < 0x20 then none
    else
      match parseStringBody rest with
      | some (tail, rem) => some (c :: tail, rem)
      | none => none

def isDigit (c : Char) : Bool := '0' ≤ c && c ≤ '9'

/-- Lex a JSON number starting at the head of the input; returns the lexeme
and the rest.  Grammar: `-? int frac? exp?` with `int = 0 | [1-9][0-9]*`. -/
def lexNumber (s : List Char) : Option (List Char × List Char) :=
  let (neg, s1) := match s with
    | '-' :: t => (['-'], t)
    | _ => (([] : List Char), s)
  match s1 with
  | [] => none
  | c :: t =>
    if c = '0' then
      let (frac, s2) := lexFrac t
      let (ex, s3) := lexExp s2
      if frac.isSome ∧ ex.isSome then
        some (neg ++ ['0'] ++ frac.getD [] ++ ex.getD [], s3)
      else none
    else if isDigit c then
      let ds := t.takeWhile isDigit
      let s2 := t.dropWhile isDigit
      let (frac, s3) := lexFrac s2
      let (ex, s4) := lexExp s3
      if frac.isSome ∧ ex.isSome then
        some (neg ++ (c :: ds) ++ frac.getD [] ++ ex.getD [], s4)
      else none
    else none
where
  /-- optional fraction part; `none` in the first slot means malformed. -/
  lexFrac (s : List Char) : Option (List Char) × List Char :=
    match s with
    | '.' :: t =>
      let ds := t.takeWhile isDigit
      if ds = [] then (none, s) else (some ('.' :: ds), t.dropWhile isDigit)
    | _ => (some [], s)
  lexExp (s : List Char) : Option (List Char) × List Char :=
    match s with
    | c :: t =>
      if c = 'e' ∨ c = 'E' then
        let (sgn, t2) := match t with
          | '+' :: u => (['+'], u)
          | '-' :: u => (['-'], u)
          | _ => (([] : List Char), t)
        let ds := t2.takeWhile isDigit
        if ds = [] then (none, s) else (some (c :: sgn ++ ds), t2.dropWhile isDigit)
      else (some [], s)
    | [] => (some [], s)

mutual
/-- Fuel-indexed JSON value parser (recursive descent).  Consumes leading
whitespace, parses one value, returns it with the unconsumed rest. -/
def parseV : Nat → List Char → Option (JVal × List Char)
  | 0, _ => none
  | fuel + 1, s =>
    let s := skipWs s
    match s with
    | [] => none
    | c :: rest =>
      if c = '{' then
        match skipWs rest with
        | '}' :: rest2 => some (.jobj [], rest2)
        | s2 =>
          match parseMembers fuel s2 with
          | some (ms, rest2) => some (.jobj ms, rest2)
          | none => none
      else if c = '[' then
        match skipWs rest with
        | ']' :: rest2 => some (.jarr [], rest2)
        | s2 =>
          match parseItems fuel s2 with
          | some (vs, rest2) => some (.jarr vs, rest2)
          | none => none
      else if c = '"' then
        match parseStringBody rest with
        | some (cs, rest2) => some (.jstr (String.mk cs), rest2)
        | none => none
      else if c = 't' then
        match rest with
        | 'r' :: 'u' :: 'e' :: rest2 => some (.jbool true, rest2)
        | _ => none
      else if c = 'f' then
        match rest with
        | 'a' :: 'l' :: 's' :: 'e' :: rest2 => some (.jbool false, rest2)
        | _ => none
      else if c = 'n' then
        match rest with
        | 'u' :: 'l' :: 'l' :: rest2 => some (.jnull, rest2)
        | _ => none
      else
        match lexNumber (c :: rest) with
        | some (lex, rest2) => some (.jnum (String.mk lex), rest2)
        | none => none

/-- One-or-more object members `string : value`, comma separated. -/
def parseMembers : Nat → List Char → Option (List (String × JVal) × List Char)
  | 0, _ => none
  | fuel + 1, s =>
    match s with
    | '"' :: rest =>
      match parseStringBody rest with
      | some (key, rest2) =>
        match skipWs rest2 with
        | ':' :: rest3 =>
          match parseV fuel rest3 with
          | some (v, rest4) =>
            match skipWs rest4 with
            | ',' :: rest5 =>
              match parseMembers fuel (skipWs rest5) with
              | some (ms, rest6) => some ((String.mk key, v) :: ms, rest6)
              | none => none
            | '}' :: rest5 => some ([(String.mk key, v)], rest5)
            | _ => none
          | none => none
        | _ => none
      | none => none
    | _ => none

/-- One-or-more array items, comma separated. -/
def parseItems : Nat → List Char → Option (List JVal × List Char)
  | 0, _ => none
  | fuel + 1, s =>
    match parseV fuel s with
    | some (v, rest) =>
      match skipWs rest with
      | ',' :: rest2 =>
        match parseItems fuel rest2 with
        | some (vs, rest3) => some (v :: vs, rest3)
        | none => none
      | ']' :: rest2 => some ([v], rest2)
      | _ => none
    | none => none
end

/-- Model of JavaScript `JSON.parse`: parse one value and require that only
whitespace remains. -/
def JSONparse (s : String) : Option JVal :=
  match parseV (s.length + 1) s.data with
  | some (v, rest) => if skipWs rest = [] then some v else none
  | none => none

/-! ## String transformations of `route.ts`

`sanitizeInput` (route.ts lines 14-16) and `cleanJsonOutput`
(route.ts lines 19-40), with the JavaScript regexes modelled explicitly:

* `text.replace(/[\x00-\x1F\x7F]/g, '')`   → `stripControl`
* ``` cleaned.match(/```json\n([\s\S]*?)\n```/) ``` → `fenceGroup`
* `cleaned.replace(/(".*?[^\\])\n(.*?")/gs, '$1\\\\n$2')` (and the `\r`,
  `\t` variants) → `escapeCtl`.
-/

/-- A character matched by the JS class `[\x00-\x1F\x7F]`. -/
def isCtl (c : Char) : Bool :=
  c.toNat ≤ 0x1F || c.toNat = 0x7F

/-- `replace(/[\x00-\x1F\x7F]/g, '')`: delete every control character. -/
def stripControl (s : List Char) : List Char :=
  s.filter (fun c => ¬ isCtl c)

/-- First index `≥ start` at which `pat` occurs as a contiguous sublist of
`s`. -/
def findSubFrom (pat : List Char) : List Char → Nat → Option Nat
  | [], start => if pat = [] then some start else none
  | c :: rest, start =>
    if pat.isPrefixOf (c :: rest) then some start
    else findSubFrom pat rest (start + 1)

/-- The capture group of the first full match of ``/```json\n([\s\S]*?)\n```/``
in `s`, lazy semantics: the earliest start position admitting a full match
wins, and the group is as short as possible.  `none` when no full match. -/
def fenceGroup (s : List Char) : Option (List Char) :=
  go s
where
  opener : List Char := '`' :: '`' :: '`' :: 'j' :: 's' :: 'o' :: 'n' :: '\n' :: []
  closer : List Char := '\n' :: '`' :: '`' :: '`' :: []
  go : List Char → Option (List Char)
    | [] => none
    | c :: rest =>
      if opener.isPrefixOf (c :: rest) then
        let after := (c :: rest).drop opener.length
        match findSubFrom closer after 0 with
        | some j => some (after.take j)
        | none => go rest
      else go rest

/-- Step 1 of `cleanJsonOutput`: if the fence regex matches and its capture
group is truthy (non-empty), replace the text by the group. -/
def fenceExtract (s : List Char) : List Char :=
  match fenceGroup s with
  | some g => if g = [] then s else g
  | none => s

/-- First quote index `≥ n` in `s`. -/
def quoteFrom (s : List Char) (n : Nat) : Option Nat :=
  ((s.drop n).findIdx? (fun c => c = '"')).map (· + n)

/-- Lazy match of `(".*?[^\\])C(.*?")` (with `/s`, so `.` matches newlines)
starting exactly at index `i`: returns `(k, j)` where the first group is
`s[i..i+1+k]`, the control character sits at `i+2+k`, and the closing quote
of the second group is at `j`.  `k` is minimal such that the whole pattern
still matches (regex backtracking), then `j` minimal. -/
def matchCtlAt (C : Char) (s : List Char) (i : Nat) : Option (Nat × Nat) :=
  if s.get? i = some '"' then
    match (List.range (s.length)).find? (fun k =>
        (match s.get? (i + 1 + k) with
         | some c => ¬ (c = '\\')
         | none => false)
        && s.get? (i + 2 + k) = some C
        && (quoteFrom s (i + 3 + k)).isSome) with
    | some k =>
      match quoteFrom s (i + 3 + k) with
      | some j => some (k, j)
      | none => none
    | none => none
  else none

/-- Leftmost match of the pattern in `s`: smallest start index `i` with a
match, returned as `(i, k, j)`. -/
def firstCtlMatch (C : Char) (s : List Char) : Option (Nat × Nat × Nat) :=
  (List.range (s.length)).findSome? (fun i =>
    (matchCtlAt C s i).map (fun p => (i, p.1, p.2)))

/-- Fuel-indexed global replace of `(".*?[^\\])C(.*?")` by
`$1\\C'$2` (the JS replacement string `'$1\\\\n$2'` inserts two literal
backslashes and the letter).  After each match the scan resumes after the
matched text, as JS global replace does. -/
def replaceCtlF (C : Char) (rep : List Char) : Nat → List Char → List Char
  | 0, s => s
  | fuel + 1, s =>
    match firstCtlMatch C s with
    | none => s
    | some (i, k, j) =>
      s.take (i + 2 + k) ++ rep ++ ((s.drop (i + 3 + k)).take (j - (i + 2 + k)))
        ++ replaceCtlF C rep fuel (s.drop (j + 1))

/-- `cleaned.replace(/(".*?[^\\])C(.*?")/gs, '$1\\\\x$2')` for control
character `C` with escape letter `x`. -/
def escapeCtl (C : Char) (letter : Char) (s : List Char) : List Char :=
  replaceCtlF C ('\\' :: '\\' :: letter :: []) (s.length + 1) s

/-- `sanitizeInput` from route.ts lines 14-16. -/
def sanitizeInput (text : String) : String :=
  String.mk (stripControl text.data)

/-- `cleanJsonOutput` from route.ts lines 19-40: fence extraction, global
control-character strip, then the three escape substitutions. -/
def cleanJsonOutput (text : String) : String :=
  let c1 := fenceExtract text.data
  let c2 := stripControl c1
  let c3 := escapeCtl '\n' 'n' c2
  let c4 := escapeCtl '\r' 'r' c3
  let c5 := escapeCtl '\t' 't' c4
  String.mk c5



/-! ## The `POST` handler of `src/app/api/decide/route.ts`

The handler's external effects (request-body JSON parse, embedding call,
`match_documents` RPC, model invocation) are supplied by a `DecideEnv`
record; the handler body is translated statement by statement.  An
`Except.error` carries the JS exception's `message`.  The Supabase RPC's
`data` being `null` and being `[]` take the same branch in the code
(`!documents || documents.length === 0`), so both are modelled by `[]`.
The response is a status code paired with a body, and the pipeline also
reports whether the Generator (`chain.invoke`) was reached. -/

/-- One row returned by the `match_documents` RPC as seen by route.ts. -/
structure DocRow where
  id : Nat
  content : String
  similarity : ℚ

/-- External-call outcomes for one request. -/
structure DecideEnv where
  keysPresent : Bool
  body : Except String (String × List String)
  embed : Except String (List ℚ)
  retrieval : Except Unit (List DocRow)
  gen : Except String String

/-- Body of an HTTP response produced by the route. -/
inductive RespBody where
  | errorMsg : String → RespBody
  | fields : String → String → String → RespBody
  | parsed : JVal → RespBody

/-- `e.message || "Unknown Server Error"` of the outer catch. -/
def jsErrMsg (e : String) : String :=
  if e = "" then "Unknown Server Error" else e

/-- The `detailed_reasoning` of the repair-failure response (route.ts line
160).  The interpolated `${parseError}`/`${repairError}` renderings are
JS-engine-specific and are modelled by a fixed placeholder; what matters to
the spec is that the raw output is embedded verbatim. -/
def repairFailureDetail (raw : String) : String :=
  "The AI generated an unparseable response. Original parsing error: SyntaxError. Repair attempt error: SyntaxError. Raw output: "
    ++ raw

/-- The fixed no-grounding fallback payload (route.ts lines 89-94). -/
def noGroundingBody : RespBody :=
  .fields "Unable to analyze."
    "No relevant frameworks found in your book library."
    "The system searched your uploaded books but could not find a mental model that applies to this specific problem. Please try rephrasing your problem or adding more books to the database."

/-- The repair-failure payload (route.ts lines 157-161). -/
def repairFailureBody (raw : String) : RespBody :=
  .fields "Analysis failed."
    "Could not parse AI response due to malformed JSON."
    (repairFailureDetail raw)

/-- `POST` from route.ts lines 42-172: returns `((status, body), generatorInvoked)`. -/
def POST (env : DecideEnv) : (Nat × RespBody) × Bool :=
  if ¬ env.keysPresent then ((500, .errorMsg "Missing API Keys in .env"), false)
  else
    match env.body with
    | .error e => ((500, .errorMsg (jsErrMsg e)), false)
    | .ok (rawProblem, rawOptions) =>
      let _problem := sanitizeInput rawProblem
      let _options := rawOptions.map sanitizeInput
      match env.embed with
      | .error _ =>
        ((503, .errorMsg "Hugging Face is busy. Please try again in 5 seconds."), false)
      | .ok _vector =>
        match env.retrieval with
        | .error _ => ((500, .errorMsg (jsErrMsg "Database search failed.")), false)
        | .ok docs =>
          if docs.isEmpty then ((200, noGroundingBody), false)
          else
            let _contextText := String.intercalate "\n---\n" (docs.map (·.content))
            match env.gen with
            | .error e => ((500, .errorMsg (jsErrMsg e)), true)
            | .ok rawOutputString =>
              match JSONparse rawOutputString with
              | some result => ((200, .parsed result), true)
              | none =>
                match JSONparse (cleanJsonOutput rawOutputString) with
                | some result => ((200, .parsed result), true)
                | none => ((500, repairFailureBody rawOutputString), true)

/-! ## The client-side result adapter of `src/app/page.tsx` (lines 47-54)

A raw payload field is `none` for JS `undefined`/`null` and `some s` for a
string `s`; `a || b` on strings is falsy exactly on `""`. -/

/-- The fields of the raw payload that the adapter inspects. -/
structure RawPayload where
  recommendation : Option String
  selected_option : Option String
  short_reason : Option String
  rationale : Option String
  reasoning : Option String
  detailed_reasoning : Option String

/-- JS `x || y` for an optional string `x`: `y` when `x` is absent or empty. -/
def jsOr (x : Option String) (y : String) : String :=
  match x with
  | some s => if s = "" then y else s
  | none => y

structure AdaptedResult where
  recommendation : String
  short_reason : String
  detailed_reasoning : String
deriving DecidableEq

/-- The `adaptedResult` computed by `handleSubmit` (page.tsx lines 49-53). -/
def adaptResult (rawData : RawPayload) : AdaptedResult where
  recommendation :=
    jsOr rawData.recommendation (jsOr rawData.selected_option "Decision Made")
  short_reason :=
    jsOr rawData.short_reason
      (jsOr rawData.rationale (jsOr rawData.reasoning "View details for reasoning."))
  detailed_reasoning :=
    jsOr rawData.detailed_reasoning
      (jsOr rawData.rationale "No detailed context provided.")

/-- The spec's precedence table (§4.7), stated from the spec's words for
comparison with `adaptResult`: the canonical field takes the first truthy
alias in the list, else the fixed default. -/
def specAliasPrecedence : List (Option String) → String → String
  | [], dflt => dflt
  | x :: xs, dflt => jsOr x (specAliasPrecedence xs dflt)

/-! ## The historical brace-extraction repair (`src/unnamed/part_003` lines 7-23)
and the spec's §4.6 repair state machine -/

/-- JS `text.substring(a, b)`: arguments are clamped to the text and swapped
when `a > b`. -/
def jsSubstring (l : List Char) (a b : Nat) : List Char :=
  let a' := min a l.length
  let b' := min b l.length
  (l.take (max a' b')).drop (min a' b')

/-- Index of the last occurrence of `c`, JS `lastIndexOf`. -/
def lastIdxOf (c : Char) (l : List Char) : Option Nat :=
  (l.reverse.findIdx? (fun d => d = c)).map (fun i => l.length - 1 - i)

/-- `cleanJsonOutput` from the historical route variant
`src/unnamed/part_003` lines 7-23: the substring from the first `{` to the
last `}` inclusive, or the original text when either brace is missing. -/
def braceExtract (text : String) : String :=
  match text.data.findIdx? (fun c => c = '{'), lastIdxOf '}' text.data with
  | some start, some stop => String.mk (jsSubstring text.data start (stop + 1))
  | _, _ => text

/-- The spec's `CONTROL_ESCAPED` stage, stated from the spec's words for
comparison: escape raw newline/carriage-return/tab characters occurring
inside string literal values (not already preceded by a backslash) into
their two-character escaped forms. -/
def specCtlEscape (l : List Char) : List Char :=
  go false l
where
  go : Bool → List Char → List Char
    | _, [] => []
    | inStr, c :: rest =>
      if c = '\\' then
        match rest with
        | d :: rest2 => c :: d :: go inStr rest2
        | [] => [c]
      else if c = '"' then c :: go (!inStr) rest
      else if inStr ∧ c = '\n' then '\\' :: 'n' :: go inStr rest
      else if inStr ∧ c = '\r' then '\\' :: 'r' :: go inStr rest
      else if inStr ∧ c = '\t' then '\\' :: 't' :: go inStr rest
      else c :: go inStr rest

/-- The repair logic actually in the active route (route.ts lines 147-163):
one strict parse, then a single cleaning pass and one re-parse. -/
def repairAttempt (raw : String) : Option JVal :=
  match JSONparse raw with
  | some j => some j
  | none => JSONparse (cleanJsonOutput raw)

/-- The ResponseRepairer as the spec's §4.6 state machine prescribes it,
stated from the spec's words for comparison with `repairAttempt`:
`RAW → FENCE_STRIPPED → BRACE_EXTRACTED → CONTROL_ESCAPED`, each stage's
parse attempted only after the previous stage's parse fails. -/
def repairStateMachineSpec (raw : String) : Option JVal :=
  match JSONparse raw with
  | some j => some j
  | none =>
    let fenced := String.mk (fenceExtract raw.data)
    match JSONparse fenced with
    | some j => some j
    | none =>
      let braced := braceExtract fenced
      match JSONparse braced with
      | some j => some j
      | none => JSONparse (String.mk (specCtlEscape braced.data))


/-! ## The SQL retrieval function `match_documents`
(`src/supabase/migrations/20251223014733_create_documents_table_and_match_function.sql`
lines 55-80)

`SELECT id, content, metadata, 1 - (embedding <=> q) AS similarity FROM
documents WHERE 1 - (embedding <=> q) > t ORDER BY embedding <=> q LIMIT k`.
The pgvector cosine-distance operator `<=>` is abstracted as a `dist`
parameter (its value involves square roots, which no claim depends on);
`ORDER BY` is modelled by a stable insertion sort on the distance key, with
ties left in table order (the SQL leaves tie order store-defined). -/

structure DbRow where
  id : Nat
  content : String
  metadata : String
  embedding : List ℚ

structure MatchedDoc where
  id : Nat
  content : String
  metadata : String
  similarity : ℚ

def insertByKey (key : DbRow → ℚ) (r : DbRow) : List DbRow → List DbRow
  | [] => [r]
  | x :: xs => if key r < key x then r :: x :: xs else x :: insertByKey key r xs

def sortByKey (key : DbRow → ℚ) : List DbRow → List DbRow
  | [] => []
  | x :: xs => insertByKey key x (sortByKey key xs)

/-- `match_documents(query_embedding, match_threshold, match_count)`. -/
def match_documents (dist : List ℚ → List ℚ → ℚ) (documents : List DbRow)
    (query_embedding : List ℚ) (match_threshold : ℚ) (match_count : Nat) :
    List MatchedDoc :=
  let key := fun r : DbRow => dist r.embedding query_embedding
  let filtered := documents.filter (fun r => match_threshold < 1 - key r)
  ((sortByKey key filtered).take match_count).map
    (fun r => ⟨r.id, r.content, r.metadata, 1 - key r⟩)


/-! ## Concrete inputs and environments used in the claim theorems -/

/-- A sample retrieved chunk (similarity 0.8). -/
def docRow1 : DocRow := ⟨1, "chunk", 4/5⟩

/-- Environment whose generator emits text that no repair stage can parse. -/
def envUnparseable : DecideEnv :=
  ⟨true, .ok ("p", ["a", "b"]), .ok [], .ok [docRow1], .ok "hello"⟩

/-- Environment whose retrieval yields zero candidates; the generator slot
is an error to emphasise it is never consulted. -/
def envNoGrounding : DecideEnv :=
  ⟨true, .ok ("p", ["a", "b"]), .ok [], .ok [], .error "never called"⟩

/-- Environment whose generation backend fails. -/
def envGenError : DecideEnv :=
  ⟨true, .ok ("p", ["a", "b"]), .ok [], .ok [docRow1], .error "Groq exploded"⟩

/-- Environment whose embedding backend fails. -/
def envEmbedError : DecideEnv :=
  ⟨true, .ok ("p", ["a", "b"]), .error "busy", .ok [docRow1], .ok "x"⟩

/-- Environment with an empty options array, which violates the spec's input
precondition, and an otherwise normal flow. -/
def envNoOptions : DecideEnv :=
  ⟨true, .ok ("p", []), .ok [], .ok [docRow1], .ok "\x7b\"recommendation\":\"A\"\x7d"⟩

/-- A fenced JSON object with a literal (unescaped) newline inside the
`short_reason` string value. -/
def fencedNewlineInput : String :=
  "```json\n\x7b\"recommendation\":\"A\",\"short_reason\":\"L1\nL2\",\"detailed_reasoning\":\"D\"\x7d\n```"

/-- Generator output with prose around a JSON object: brace extraction would
recover it, fence stripping and control stripping cannot. -/
def proseWrappedInput : String := "Result: \x7b\"recommendation\": \"A\"\x7d Done"


/-! ## Helper lemmas and sanity checks -/

example : sanitizeInput "a\nb\x7fc" = "abc" := rfl
example : fenceExtract "```json\n\x7b\"a\":1\x7d\n```".data = "\x7b\"a\":1\x7d".data := rfl
example : fenceExtract "no fence \x7b\"a\":1\x7d".data = "no fence \x7b\"a\":1\x7d".data := rfl
example : escapeCtl '\n' 'n' "\"a\nb\"".data = "\"a\\\\nb\"".data := rfl
example : cleanJsonOutput "```json\n\x7b\"a\":\"x\ny\"\x7d\n```" = "\x7b\"a\":\"xy\"\x7d" := rfl

theorem mem_stripControl_not_ctl {s : List Char} {c : Char}
    (h : c ∈ stripControl s) : ¬ isCtl c = true := by
  unfold stripControl at h
  rw [List.mem_filter] at h
  simpa using h.2

theorem matchCtlAt_eq_none {C : Char} {s : List Char} (h : C ∉ s) (i : Nat) :
    matchCtlAt C s i = none := by
  unfold matchCtlAt
  split
  · split
    next k hk =>
      exfalso
      have hp := List.find?_some hk
      simp only [Bool.and_eq_true, decide_eq_true_eq] at hp
      exact h (List.get?_mem hp.1.2)
    next => rfl
  · rfl

theorem firstCtlMatch_eq_none {C : Char} {s : List Char} (h : C ∉ s) :
    firstCtlMatch C s = none := by
  unfold firstCtlMatch
  rw [List.findSome?_eq_none_iff]
  intro i _
  rw [matchCtlAt_eq_none h i]
  rfl

theorem replaceCtlF_eq_self {C : Char} {rep s : List Char} (h : C ∉ s)
    (fuel : Nat) : replaceCtlF C rep fuel s = s := by
  cases fuel with
  | zero => rfl
  | succ n =>
    unfold replaceCtlF
    rw [firstCtlMatch_eq_none h]

theorem escapeCtl_eq_self {C letter : Char} {s : List Char} (h : C ∉ s) :
    escapeCtl C letter s = s :=
  replaceCtlF_eq_self h _

theorem not_mem_stripControl_of_ctl {C : Char} (hC : isCtl C = true)
    (s : List Char) : C ∉ stripControl s := fun hmem =>
  mem_stripControl_not_ctl hmem hC

/-- Steps 3a-3c of `cleanJsonOutput` never fire: the step-2 global strip has
already deleted every control character, so `cleanJsonOutput` coincides with
fence extraction followed by the strip. -/
theorem cleanJsonOutput_eq (text : String) :
    cleanJsonOutput text = String.mk (stripControl (fenceExtract text.data)) := by
  simp only [cleanJsonOutput]
  rw [escapeCtl_eq_self (not_mem_stripControl_of_ctl (by decide) _),
    escapeCtl_eq_self (not_mem_stripControl_of_ctl (by decide) _),
    escapeCtl_eq_self (not_mem_stripControl_of_ctl (by decide) _)]

example : braceExtract "Result: \x7b\"a\": 1\x7d Done" = "\x7b\"a\": 1\x7d" := rfl
example : braceExtract "no braces" = "no braces" := rfl

theorem mem_insertByKey {key : DbRow → ℚ} {r x : DbRow} {l : List DbRow} :
    x ∈ insertByKey key r l ↔ x = r ∨ x ∈ l := by
  induction l with
  | nil => simp [insertByKey]
  | cons y ys ih =>
    unfold insertByKey
    split
    · simp
    · simp only [List.mem_cons, ih]
      tauto

theorem mem_sortByKey {key : DbRow → ℚ} {x : DbRow} {l : List DbRow} :
    x ∈ sortByKey key l ↔ x ∈ l := by
  induction l with
  | nil => simp [sortByKey]
  | cons y ys ih =>
    unfold sortByKey
    rw [mem_insertByKey, ih]
    simp

theorem pairwise_insertByKey {key : DbRow → ℚ} {r : DbRow} {l : List DbRow}
    (h : l.Pairwise (fun a b => key a ≤ key b)) :
    (insertByKey key r l).Pairwise (fun a b => key a ≤ key b) := by
  induction l with
  | nil => simp [insertByKey]
  | cons y ys ih =>
    rw [List.pairwise_cons] at h
    unfold insertByKey
    split
    next hlt =>
      rw [List.pairwise_cons]
      refine ⟨?_, List.pairwise_cons.mpr h⟩
      intro b hb
      rcases List.mem_cons.mp hb with rfl | hb2
      · exact le_of_lt hlt
      · exact le_trans (le_of_lt hlt) (h.1 b hb2)
    next hge =>
      rw [List.pairwise_cons]
      refine ⟨?_, ih h.2⟩
      intro b hb
      rcases mem_insertByKey.mp hb with rfl | hb2
      · exact le_of_not_lt hge
      · exact h.1 b hb2

theorem pairwise_sortByKey {key : DbRow → ℚ} (l : List DbRow) :
    (sortByKey key l).Pairwise (fun a b => key a ≤ key b) := by
  induction l with
  | nil => simp [sortByKey]
  | cons y ys ih =>
    unfold sortByKey
    exact pairwise_insertByKey ih
example : JSONparse "hello" = none := rfl
example : JSONparse "\x7b\"a\": \"b\"\x7d" = some (.jobj [("a", .jstr "b")]) := rfl
example : JSONparse "\x7b\"a\": \"b\nc\"\x7d" = none := rfl
example : JSONparse "\x7b\"a\": \"b\\nc\"\x7d" = some (.jobj [("a", .jstr "b\nc")]) := rfl
example : JSONparse "[1, -2.5e3, true, null]"
    = some (.jarr [.jnum "1", .jnum "-2.5e3", .jbool true, .jnull]) := rfl

/-! ## Claim theorems -/

/-- C1 counterexample: on a generator output (`"hello"`) for which both the
strict parse and the post-repair parse fail, the route responds with HTTP
status 500 — not with a successful 200 response as the claim states. -/
theorem post_repair_exhausted_counterexample :
    JSONparse "hello" = none
    ∧ JSONparse (cleanJsonOutput "hello") = none
    ∧ (POST envUnparseable).1.1 = 500 :=
  ⟨rfl, rfl, rfl⟩

/-- C1 (amended): whenever every repair stage's parse attempt fails, the
route returns the degraded DecisionResult — sentinel recommendation
`"Analysis failed."`, a `short_reason` stating a formatting failure, and a
`detailed_reasoning` embedding the original raw text verbatim — but with
HTTP status 500, an error status, rather than as a 200 response. -/
theorem post_repair_exhausted_degraded_500 (env : DecideEnv) (p : String)
    (opts : List String) (v : List ℚ) (docs : List DocRow) (raw : String)
    (hk : env.keysPresent = true) (hb : env.body = .ok (p, opts))
    (he : env.embed = .ok v) (hr : env.retrieval = .ok docs)
    (hd : docs ≠ []) (hg : env.gen = .ok raw)
    (h1 : JSONparse raw = none)
    (h2 : JSONparse (cleanJsonOutput raw) = none) :
    POST env
      = ((500, .fields "Analysis failed."
          "Could not parse AI response due to malformed JSON."
          (repairFailureDetail raw)), true)
    ∧ ∃ pre, repairFailureDetail raw = pre ++ raw := by
  have hde : docs.isEmpty = false := by
    cases docs with
    | nil => exact absurd rfl hd
    | cons a as => rfl
  refine ⟨?_, ⟨_, rfl⟩⟩
  simp [POST, hk, hb, he, hr, hg, h1, h2, hde, repairFailureBody]

/-- Witness for C1 (amended) at the concrete environment `envUnparseable`. -/
theorem post_repair_exhausted_degraded_500_witness :
    POST envUnparseable
      = ((500, .fields "Analysis failed."
          "Could not parse AI response due to malformed JSON."
          (repairFailureDetail "hello")), true)
    ∧ ∃ pre, repairFailureDetail "hello" = pre ++ "hello" :=
  post_repair_exhausted_degraded_500 envUnparseable "p" ["a", "b"] [] [docRow1]
    "hello" rfl rfl rfl rfl (by simp) rfl rfl rfl

/-- C2: when retrieval yields zero candidates above the threshold, the route
short-circuits: the Generator is never invoked and the response is exactly
the fixed fallback payload with recommendation `"Unable to analyze."`,
returned with status 200. -/
theorem post_no_grounding_short_circuit (env : DecideEnv) (p : String)
    (opts : List String) (v : List ℚ)
    (hk : env.keysPresent = true) (hb : env.body = .ok (p, opts))
    (he : env.embed = .ok v) (hr : env.retrieval = .ok []) :
    POST env
      = ((200, .fields "Unable to analyze."
          "No relevant frameworks found in your book library."
          "The system searched your uploaded books but could not find a mental model that applies to this specific problem. Please try rephrasing your problem or adding more books to the database."),
        false) := by
  simp [POST, hk, hb, he, hr, noGroundingBody]

/-- Witness for C2 at the concrete environment `envNoGrounding`. -/
theorem post_no_grounding_short_circuit_witness :
    POST envNoGrounding
      = ((200, .fields "Unable to analyze."
          "No relevant frameworks found in your book library."
          "The system searched your uploaded books but could not find a mental model that applies to this specific problem. Please try rephrasing your problem or adding more books to the database."),
        false) :=
  post_no_grounding_short_circuit envNoGrounding "p" ["a", "b"] [] rfl rfl rfl rfl

/-- C3 (code evaluated at the failing input): for the fenced JSON object with
a literal newline inside a string value, the strict parse fails and the
repair parse succeeds — but the newline has been deleted by the global
control-character strip (step 2 runs before the escape substitutions of step
3, which therefore never fire), so the parsed object is NOT equal to the
intended structure: the string value has lost its line break instead of
carrying it in escaped two-character form. -/
theorem cleanJsonOutput_deletes_newline_at_failing_input :
    JSONparse fencedNewlineInput = none
    ∧ cleanJsonOutput fencedNewlineInput
        = "\x7b\"recommendation\":\"A\",\"short_reason\":\"L1L2\",\"detailed_reasoning\":\"D\"\x7d"
    ∧ JSONparse (cleanJsonOutput fencedNewlineInput)
        = some (.jobj [("recommendation", .jstr "A"), ("short_reason", .jstr "L1L2"),
            ("detailed_reasoning", .jstr "D")])
    ∧ JSONparse (cleanJsonOutput fencedNewlineInput)
        ≠ some (.jobj [("recommendation", .jstr "A"), ("short_reason", .jstr "L1\nL2"),
            ("detailed_reasoning", .jstr "D")]) := by
  have hclean : cleanJsonOutput fencedNewlineInput
      = "\x7b\"recommendation\":\"A\",\"short_reason\":\"L1L2\",\"detailed_reasoning\":\"D\"\x7d" := by
    rw [cleanJsonOutput_eq]
    rfl
  have hparse : JSONparse (cleanJsonOutput fencedNewlineInput)
      = some (.jobj [("recommendation", .jstr "A"), ("short_reason", .jstr "L1L2"),
          ("detailed_reasoning", .jstr "D")]) := by
    rw [hclean]
    rfl
  refine ⟨rfl, hclean, hparse, ?_⟩
  rw [hparse]
  simp

/-- C4 counterexample: on prose-wrapped JSON, the spec's staged repairer
(with its `BRACE_EXTRACTED` stage) recovers the object, but the active
route's repair fails — the code does not apply the claimed stage sequence. -/
theorem repair_stage_machine_counterexample :
    repairAttempt proseWrappedInput = none
    ∧ repairStateMachineSpec proseWrappedInput
        = some (.jobj [("recommendation", .jstr "A")])
    ∧ repairAttempt proseWrappedInput ≠ repairStateMachineSpec proseWrappedInput := by
  have h1 : repairAttempt proseWrappedInput = none := rfl
  have h2 : repairStateMachineSpec proseWrappedInput
      = some (.jobj [("recommendation", .jstr "A")]) := rfl
  refine ⟨h1, h2, ?_⟩
  rw [h1, h2]
  simp

/-- C4 (amended): the active route's repairer applies exactly two parse
attempts in order — a strict parse of the full raw text and, only after it
fails, one combined cleaning pass (fence extraction, then the global
control-character strip; the escape substitutions never fire) followed by a
single re-parse.  There is no brace-extraction stage and no per-stage parse
beyond these two. -/
theorem repairAttempt_two_stage (raw : String) :
    (∀ j, JSONparse raw = some j → repairAttempt raw = some j)
    ∧ (JSONparse raw = none →
        repairAttempt raw
          = JSONparse (String.mk (stripControl (fenceExtract raw.data)))) := by
  constructor
  · intro j hj
    unfold repairAttempt
    rw [hj]
  · intro hn
    unfold repairAttempt
    rw [hn, cleanJsonOutput_eq]

/-- Witness for C4 (amended): the first stage succeeds alone on valid JSON;
on the prose-wrapped input the second stage is the cleaning pass. -/
theorem repairAttempt_two_stage_witness :
    repairAttempt "\x7b\"a\": 1\x7d" = some (.jobj [("a", .jnum "1")])
    ∧ repairAttempt proseWrappedInput
        = JSONparse (String.mk (stripControl (fenceExtract proseWrappedInput.data))) :=
  ⟨(repairAttempt_two_stage "\x7b\"a\": 1\x7d").1 _ rfl,
   (repairAttempt_two_stage proseWrappedInput).2 rfl⟩

/-- C5: `match_documents` returns only rows whose similarity
`1 − cosineDistance` strictly exceeds `match_threshold`, in non-increasing
similarity order, truncated to at most `match_count` rows — for every
distance function, table state, query vector, threshold and count. -/
theorem match_documents_contract (dist : List ℚ → List ℚ → ℚ)
    (documents : List DbRow) (query_embedding : List ℚ)
    (match_threshold : ℚ) (match_count : Nat) :
    (∀ d ∈ match_documents dist documents query_embedding match_threshold match_count,
      match_threshold < d.similarity)
    ∧ (match_documents dist documents query_embedding match_threshold
        match_count).Pairwise (fun a b => b.similarity ≤ a.similarity)
    ∧ (match_documents dist documents query_embedding match_threshold
        match_count).length ≤ match_count := by
  refine ⟨?_, ?_, ?_⟩
  · intro d hd
    simp only [match_documents, List.mem_map] at hd
    obtain ⟨r, hr, rfl⟩ := hd
    have hr2 : r ∈ sortByKey (fun r => dist r.embedding query_embedding)
        (documents.filter
          (fun r => match_threshold < 1 - dist r.embedding query_embedding)) :=
      List.mem_of_mem_take hr
    have hr3 := (List.mem_filter.mp (mem_sortByKey.mp hr2)).2
    simpa using hr3
  · simp only [match_documents]
    rw [List.pairwise_map]
    refine ((pairwise_sortByKey _).sublist (List.take_sublist _ _)).imp ?_
    intro a b h
    show 1 - dist b.embedding query_embedding ≤ 1 - dist a.embedding query_embedding
    exact sub_le_sub_left h 1
  · simp only [match_documents, List.length_map]
    exact List.length_take_le _ _

/-- C6 counterexample: a generation-backend error is surfaced with HTTP
status 500 via the generic handler, not 503 as the claim states. -/
theorem post_generation_error_counterexample :
    envGenError.gen = .error "Groq exploded"
    ∧ POST envGenError = ((500, .errorMsg "Groq exploded"), true)
    ∧ (POST envGenError).1.1 ≠ 503 :=
  ⟨rfl, rfl, by decide⟩

/-- C6 (amended): an embedding-backend error is surfaced as 503 with a fixed
busy message; a generation-backend error propagates to the generic handler
and is surfaced as 500 with the error's message.  Neither path retries. -/
theorem post_provider_error_statuses (env : DecideEnv) (p : String)
    (opts : List String)
    (hk : env.keysPresent = true) (hb : env.body = .ok (p, opts)) :
    (∀ em, env.embed = .error em →
      POST env
        = ((503, .errorMsg "Hugging Face is busy. Please try again in 5 seconds."),
          false))
    ∧ (∀ v docs gm, env.embed = .ok v → env.retrieval = .ok docs → docs ≠ [] →
        env.gen = .error gm →
        POST env = ((500, .errorMsg (jsErrMsg gm)), true)) := by
  constructor
  · intro em hem
    simp [POST, hk, hb, hem]
  · intro v docs gm he hr hd hg
    have hde : docs.isEmpty = false := by
      cases docs with
      | nil => exact absurd rfl hd
      | cons a as => rfl
    simp [POST, hk, hb, he, hr, hg, hde]

/-- Witness for C6 (amended) at the concrete environments `envEmbedError`
and `envGenError`. -/
theorem post_provider_error_statuses_witness :
    POST envEmbedError
      = ((503, .errorMsg "Hugging Face is busy. Please try again in 5 seconds."),
        false)
    ∧ POST envGenError = ((500, .errorMsg (jsErrMsg "Groq exploded")), true) :=
  ⟨(post_provider_error_statuses envEmbedError "p" ["a", "b"] rfl rfl).1 "busy" rfl,
   (post_provider_error_statuses envGenError "p" ["a", "b"] rfl rfl).2 [] [docRow1]
     "Groq exploded" rfl rfl (by simp) rfl⟩

theorem jsOr_ne_empty {x : Option String} {y : String} (hy : y ≠ "") :
    jsOr x y ≠ "" := by
  unfold jsOr
  cases x with
  | none => exact hy
  | some s =>
    by_cases hs : s = ""
    · simp [hs, hy]
    · simp [hs]

/-- C7: `adaptResult` resolves field-name aliases by the fixed precedence
table of the spec (`recommendation` then `selected_option`; `short_reason`
then `rationale` then `reasoning`; `detailed_reasoning` then `rationale`),
fills any field still unresolved with a fixed non-empty default, and its
output always carries all three canonical fields as non-empty strings. -/
theorem adaptResult_precedence_and_totality (rawData : RawPayload) :
    (adaptResult rawData).recommendation
      = specAliasPrecedence [rawData.recommendation, rawData.selected_option]
          "Decision Made"
    ∧ (adaptResult rawData).short_reason
      = specAliasPrecedence [rawData.short_reason, rawData.rationale, rawData.reasoning]
          "View details for reasoning."
    ∧ (adaptResult rawData).detailed_reasoning
      = specAliasPrecedence [rawData.detailed_reasoning, rawData.rationale]
          "No detailed context provided."
    ∧ (adaptResult rawData).recommendation ≠ ""
    ∧ (adaptResult rawData).short_reason ≠ ""
    ∧ (adaptResult rawData).detailed_reasoning ≠ "" :=
  ⟨rfl, rfl, rfl,
   jsOr_ne_empty (jsOr_ne_empty (by decide)),
   jsOr_ne_empty (jsOr_ne_empty (jsOr_ne_empty (by decide))),
   jsOr_ne_empty (jsOr_ne_empty (by decide))⟩

/-- C10: the adapter treats an empty-string field exactly like an absent
field — replacing any alias field's value by `some ""` or by `none` yields
the same adapted output, and the canonical output fields are never the empty
string (they fall through to the next alias or the fixed default). -/
theorem adaptResult_empty_as_absent (rawData : RawPayload) :
    adaptResult { rawData with recommendation := some "" }
      = adaptResult { rawData with recommendation := none }
    ∧ adaptResult { rawData with selected_option := some "" }
      = adaptResult { rawData with selected_option := none }
    ∧ adaptResult { rawData with short_reason := some "" }
      = adaptResult { rawData with short_reason := none }
    ∧ adaptResult { rawData with rationale := some "" }
      = adaptResult { rawData with rationale := none }
    ∧ adaptResult { rawData with reasoning := some "" }
      = adaptResult { rawData with reasoning := none }
    ∧ adaptResult { rawData with detailed_reasoning := some "" }
      = adaptResult { rawData with detailed_reasoning := none }
    ∧ (adaptResult rawData).recommendation ≠ ""
    ∧ (adaptResult rawData).short_reason ≠ ""
    ∧ (adaptResult rawData).detailed_reasoning ≠ "" :=
  ⟨rfl, rfl, rfl, rfl, rfl, rfl,
   jsOr_ne_empty (jsOr_ne_empty (by decide)),
   jsOr_ne_empty (jsOr_ne_empty (jsOr_ne_empty (by decide))),
   jsOr_ne_empty (jsOr_ne_empty (by decide))⟩

/-- C8 counterexample: a request body whose options array is empty — far
from containing ≥2 non-empty distinct entries — is processed as a normal
decision request: the Generator is invoked and its parsed output is returned
with status 200.  The route performs no validation of the precondition. -/
theorem post_unvalidated_options_counterexample :
    envNoOptions.body = .ok ("p", [])
    ∧ POST envNoOptions
        = ((200, .parsed (.jobj [("recommendation", .jstr "A")])), true) :=
  ⟨rfl, rfl⟩

/-- C8 (amended): the route sanitizes `problem` and each option but performs
no validation of the options array: for every options list — of any length,
with blank or duplicate entries — the request proceeds through the normal
pipeline (generator invoked, parsed output returned with status 200). -/
theorem post_processes_any_options (env : DecideEnv) (p : String)
    (opts : List String) (v : List ℚ) (docs : List DocRow) (raw : String)
    (j : JVal)
    (hk : env.keysPresent = true) (hb : env.body = .ok (p, opts))
    (he : env.embed = .ok v) (hr : env.retrieval = .ok docs)
    (hd : docs ≠ []) (hg : env.gen = .ok raw)
    (hj : JSONparse raw = some j) :
    POST env = ((200, .parsed j), true) := by
  have hde : docs.isEmpty = false := by
    cases docs with
    | nil => exact absurd rfl hd
    | cons a as => rfl
  simp [POST, hk, hb, he, hr, hg, hj, hde]

/-- Witness for C8 (amended) at the concrete environment `envNoOptions`,
whose options array is empty. -/
theorem post_processes_any_options_witness :
    POST envNoOptions
      = ((200, .parsed (.jobj [("recommendation", .jstr "A")])), true) :=
  post_processes_any_options envNoOptions "p" [] [] [docRow1]
    "\x7b\"recommendation\":\"A\"\x7d" (.jobj [("recommendation", .jstr "A")])
    rfl rfl rfl rfl (by simp) rfl rfl

/-- C9: for every input, the output of `cleanJsonOutput` contains no raw
control character (`0x00`–`0x1F` or `0x7F`) — the global strip deletes them
all — and consequently the three newline/carriage-return/tab escaping
substitutions are identity transformations on the already-stripped string. -/
theorem cleanJsonOutput_no_ctl_escapes_vacuous (text : String) :
    (∀ c ∈ (cleanJsonOutput text).data, ¬ isCtl c = true)
    ∧ escapeCtl '\n' 'n' (stripControl (fenceExtract text.data))
        = stripControl (fenceExtract text.data)
    ∧ escapeCtl '\r' 'r' (stripControl (fenceExtract text.data))
        = stripControl (fenceExtract text.data)
    ∧ escapeCtl '\t' 't' (stripControl (fenceExtract text.data))
        = stripControl (fenceExtract text.data) := by
  refine ⟨?_, escapeCtl_eq_self (not_mem_stripControl_of_ctl (by decide) _),
    escapeCtl_eq_self (not_mem_stripControl_of_ctl (by decide) _),
    escapeCtl_eq_self (not_mem_stripControl_of_ctl (by decide) _)⟩
  intro c hc
  rw [cleanJsonOutput_eq] at hc
  exact mem_stripControl_not_ctl hc
